import Mathlib

/-!
Verification of the orchestration core of `space_media_optimizer`
(a Rust batch media optimizer).  The development shallowly embeds the
path resolver (`src/optimizer/path_resolver.rs`), the file manager
(`src/file_manager.rs`), the idempotency ledger (`src/state.rs`) and the
per-file task pipeline (`src/optimizer/task_optimizer.rs`), and proves or
refutes the specification claims about them.

Modelling conventions:
* Rust `Path`/`PathBuf` values are modelled by `RPath`: an absoluteness
  flag plus the list of normal components, with `join`, `parent`,
  `file_stem`, `extension` and prefix stripping following the semantics
  of `std::path` (in particular `join` with an absolute argument replaces
  the base path).
* `u64` sizes and timestamps are `Nat`; Rust `u64::saturating_sub` is the
  truncated subtraction of `Nat`.
* `f64` arithmetic in the size-threshold comparison and the reduction
  percentage is modelled exactly over `ℚ`; the claims under study are
  about the strictness and shape of these expressions, not about binary
  rounding.
* The filesystem is a partial map from paths to file data; external
  encoders are modelled by the data they write at the resolved output
  path, per the collaborator contract of the specification.
-/

/-- Split a character list on a separator character (groups may be empty,
as in Rust's `str::split`). -/
def splitOnChar (sep : Char) (cs : List Char) : List (List Char) :=
  cs.foldr
    (fun c acc =>
      if c = sep then [] :: acc
      else
        match acc with
        | [] => [[c]]
        | g :: gs => (c :: g) :: gs)
    [[]]

/-- Character-wise lower-casing (ASCII is all that the extension tables
use), mirroring `str::to_lowercase` on ASCII extensions. -/
def lowerStr (s : String) : String :=
  ⟨s.data.map Char.toLower⟩

/-- Model of a Rust `Path`: whether it has a root, and its normal
components in order.  `/media/x/y.png` is `⟨true, ["media","x","y.png"]⟩`. -/
structure RPath where
  absolute : Bool
  components : List String
deriving DecidableEq, Repr

namespace RPath

/-- Rust `Path::join` / `PathBuf::push`: an absolute argument replaces the
base path entirely, a relative argument is appended component-wise. -/
def join (p q : RPath) : RPath :=
  if q.absolute then q else ⟨p.absolute, p.components ++ q.components⟩

/-- Join a single (relative) file-name component, as in `dir.join(filename)`
with a plain file name. -/
def joinName (p : RPath) (name : String) : RPath :=
  ⟨p.absolute, p.components ++ [name]⟩

/-- Rust `Path::parent`: drop the last component; `None` for the root and
for the empty path. -/
def parent (p : RPath) : Option RPath :=
  match p.components with
  | [] => none
  | _ :: _ => some ⟨p.absolute, p.components.dropLast⟩

/-- Rust `Path::file_name` (for paths ending in a normal component). -/
def fileName (p : RPath) : Option String :=
  p.components.getLast?

/-- Rust `Path::with_file_name`: replace the final component. -/
def withFileName (p : RPath) (name : String) : RPath :=
  ⟨p.absolute, p.components.dropLast ++ [name]⟩

/-- Index of the last occurrence of `'.'` in a list of characters. -/
def lastDotIdx (cs : List Char) : Option Nat :=
  match cs.reverse.findIdx? (· = '.') with
  | none => none
  | some j => some (cs.length - 1 - j)

/-- Split a file name into Rust's `file_stem` and `extension`: the portion
before/after the last dot, except that a lone leading dot (hidden files)
yields no extension. -/
def stemExt (name : String) : String × Option String :=
  let cs := name.data
  match lastDotIdx cs with
  | none => (name, none)
  | some 0 => (name, none)
  | some i => (⟨cs.take i⟩, some ⟨cs.drop (i + 1)⟩)

/-- Rust `Path::file_stem`. -/
def fileStem (p : RPath) : Option String :=
  (p.fileName).map (fun n => (stemExt n).1)

/-- Rust `Path::extension`. -/
def extension (p : RPath) : Option String :=
  (p.fileName).bind (fun n => (stemExt n).2)

/-- Rust `Path::strip_prefix` (written without the underscore): succeeds
when `base` is a component-wise prefix with the same absoluteness, and
returns the relative remainder. -/
def stripPrefixOf (p base : RPath) : Option RPath :=
  if base.absolute = p.absolute ∧ base.components.isPrefixOf p.components then
    some ⟨false, p.components.drop base.components.length⟩
  else
    none

/-- One pass of lexical path normalisation (accumulator holds the already
normalised components in reverse). -/
def canonAux (acc : List String) : List String → List String
  | [] => acc.reverse
  | c :: rest =>
      if c = "." ∨ c = "" then canonAux acc rest
      else if c = ".." then canonAux (acc.drop 1) rest
      else canonAux (c :: acc) rest

/-- Modelled from the platform: `std::fs::canonicalize` for an existing,
symlink-free path, i.e. lexical normalisation that removes `.`/empty
components and resolves `..`. -/
def canonicalize (p : RPath) : RPath :=
  ⟨p.absolute, canonAux [] p.components⟩

/-- Interleave components with `/`. -/
def intercalateSlash : List String → String
  | [] => ""
  | [x] => x
  | x :: xs => x ++ "/" ++ intercalateSlash xs

/-- Rendering used by `Path::to_string_lossy` on well-formed Unicode
paths; this is the ledger's map key. -/
def render (p : RPath) : String :=
  (if p.absolute then "/" else "") ++ intercalateSlash p.components

/-- Parse a path string the way `PathBuf::from` + `components()` reads it
(empty components collapse; a leading `/` marks the root). -/
def parse (s : String) : RPath :=
  ⟨(match s.data with | [] => false | c :: _ => c = '/'),
   ((splitOnChar '/' s.data).map (fun g => (⟨g⟩ : String))).filter (· ≠ "")⟩

end RPath

namespace FileManager

/-- `FileManager::is_image` (src/file_manager.rs): extension check,
case-insensitive. -/
def is_image (p : RPath) : Bool :=
  match p.extension with
  | some ext => ["jpg", "jpeg", "png", "webp"].contains (lowerStr ext)
  | none => false

/-- `FileManager::is_video` (src/file_manager.rs). -/
def is_video (p : RPath) : Bool :=
  match p.extension with
  | some ext => ["mp4", "mov", "avi", "mkv", "webm"].contains (lowerStr ext)
  | none => false

/-- `FileManager::is_supported_format` (src/file_manager.rs). -/
def is_supported_format (p : RPath) : Bool :=
  match p.extension with
  | some ext =>
      ["jpg", "jpeg", "png", "webp", "mp4", "mov", "avi", "mkv", "webm"].contains (lowerStr ext)
  | none => false

end FileManager


/-- `Config` (src/config.rs), restricted to the fields the orchestration
core consults; `size_threshold` is the `f64` threshold, modelled in `ℚ`. -/
structure Config where
  size_threshold : ℚ
  dry_run : Bool
  output_path : Option RPath
  convert_to_webp : Bool
  keep_processed : Bool
deriving DecidableEq, Repr

namespace PathResolver

/-- `PathResolver::get_output_extension` (src/optimizer/path_resolver.rs):
`mp4` for videos, `webp` under conversion, otherwise the input's own
extension with a `jpg` default. -/
def get_output_extension (input_path : RPath) (config : Config) : String :=
  if FileManager.is_video input_path then "mp4"
  else if config.convert_to_webp then "webp"
  else (input_path.extension).getD "jpg"

/-- `PathResolver::resolve_output_directory_path`
(src/optimizer/path_resolver.rs): canonicalize the base and output
directories, strip the base off the input (falling back to the input's
parent on failure), then join `output / relative / filename`. -/
def resolve_output_directory_path (input_path input_base_dir output_dir : RPath)
    (filename : String) : RPath :=
  let canonical_base := input_base_dir.canonicalize
  let canonical_output := output_dir.canonicalize
  let relative_path :=
    match input_path.stripPrefixOf canonical_base with
    | some rel => (rel.parent).getD ⟨false, []⟩
    | none => (input_path.parent).getD ⟨false, []⟩
  (canonical_output.join relative_path).joinName filename

/-- `PathResolver::get_output_path` (src/optimizer/path_resolver.rs):
`none` models the `Err` on a missing file stem. -/
def get_output_path (input_path input_base_dir : RPath) (config : Config) :
    Option RPath :=
  match input_path.fileStem with
  | none => none
  | some file_stem =>
      let extension := get_output_extension input_path config
      let filename := file_stem ++ "." ++ extension
      match config.output_path with
      | some output_dir =>
          some (resolve_output_directory_path input_path input_base_dir output_dir filename)
      | none => some (input_path.withFileName filename)

end PathResolver

namespace ImageProcessor

/-- `ImageProcessor::get_output_path` (src/image_processor.rs): the
processor's private copy of the resolver, used to pick where the external
encoder writes.  It differs from `PathResolver` only in output-directory
mode (no canonicalisation, and strip-failure keeps the full input path);
the in-place branch is identical. -/
def get_output_path (config : Config) (input_path input_base_dir : RPath) : RPath :=
  let stem := (input_path.fileStem).getD ""
  let extension :=
    if config.convert_to_webp then "webp"
    else (input_path.extension).getD "jpg"
  let filename := stem ++ "." ++ extension
  match config.output_path with
  | some output_dir =>
      let relative_path :=
        ((input_path.stripPrefixOf input_base_dir).getD input_path).parent.getD ⟨false, []⟩
      (output_dir.join relative_path).joinName filename
  | none => input_path.withFileName filename

end ImageProcessor


/-- Abstract contents of a file on disk: an opaque byte-content identity,
the byte size, and the modification time (seconds). -/
structure FileData where
  bytes : Nat
  size : Nat
  mtime : Nat
deriving DecidableEq, Repr

/-- The filesystem: a partial map from paths to file data. -/
def FS := RPath → Option FileData

/-- Write (create or overwrite) a file. -/
def fsSet (fs : FS) (p : RPath) (d : FileData) : FS :=
  fun q => if q = p then some d else fs q

/-- Delete a file (no-op when absent, matching an ignored error). -/
def fsRemove (fs : FS) (p : RPath) : FS :=
  fun q => if q = p then none else fs q

/-- Which I/O steps of `FileManager::replace_file` fail in a given run,
with the half-written data a failed overwrite leaves behind. -/
structure ReplaceFileFailure where
  backup_copy_fails : Bool
  main_copy_fails : Bool
  corrupted : FileData
  restore_copy_fails : Bool
  remove_backup_fails : Bool
deriving DecidableEq, Repr

namespace FileManager

/-- The backup location used by `FileManager::replace_file`:
`original.with_extension(format!("{}.backup", ext))`, i.e. the file name
with `.backup` appended after the original extension. -/
def backup_path (original : RPath) : RPath :=
  let ext := (original.extension).getD ""
  original.withFileName (((original.fileStem).getD "") ++ "." ++ ext ++ ".backup")

/-- `FileManager::replace_file` (src/file_manager.rs): copy the original
to a backup, copy the optimized file over the original; on failure of
that copy, restore the original from the backup (best effort) and report
the error; finally remove the backup (best effort).  Returns
`(succeeded, final filesystem)`. -/
def replace_file (fs : FS) (original optimized : RPath) (f : ReplaceFileFailure) :
    Bool × FS :=
  let backup := backup_path original
  match fs original with
  | none => (false, fs)
  | some orig_data =>
    if f.backup_copy_fails then (false, fs)
    else
      let fs1 := fsSet fs backup orig_data
      match fs1 optimized, f.main_copy_fails with
      | some opt_data, false =>
          let fs2 := fsSet fs1 original opt_data
          let fs3 := if f.remove_backup_fails then fs2 else fsRemove fs2 backup
          (true, fs3)
      | _, _ =>
          let fs2 := fsSet fs1 original f.corrupted
          let fs3 :=
            if f.restore_copy_fails then fs2
            else
              match fs2 backup with
              | some b => fsSet fs2 original b
              | none => fs2
          let fs4 := if f.remove_backup_fails then fs3 else fsRemove fs3 backup
          (false, fs4)

end FileManager

/-- One ledger record, `ProcessedFile` (src/state.rs). -/
structure ProcessedFile where
  path : RPath
  modified_time : Nat
  original_size : Nat
  optimized_size : Nat
  reduction_percent : ℚ
  processed_at : Nat
deriving DecidableEq, Repr

/-- `ProcessedFile::new` (src/state.rs): the reduction percentage is
computed only when `original_size > 0`, and is `0.0` otherwise.  The
`f64` expression `(1.0 - optimized/original) * 100.0` is modelled by its
exact rational value, written as the single fraction
`((original - optimized) * 100) / original` so that it evaluates by
kernel reduction; `reductionPercent_eq` below recovers the original
shape. -/
def ProcessedFile.new (path : RPath) (modified_time original_size optimized_size
    processed_at : Nat) : ProcessedFile :=
  let reduction_percent : ℚ :=
    if original_size > 0 then
      mkRat (((original_size : ℤ) - (optimized_size : ℤ)) * 100) original_size
    else 0
  ⟨path, modified_time, original_size, optimized_size, reduction_percent, processed_at⟩

/-- The in-memory `StateFile::processed_files` map: path-string keys to
records, at most one entry per key. -/
abbrev Ledger := List (String × ProcessedFile)

/-- `HashMap::get` on the ledger. -/
def ledgerGet (st : Ledger) (key : String) : Option ProcessedFile :=
  (st.find? (fun kv => decide (kv.1 = key))).map Prod.snd

namespace StateManager

/-- `StateManager::is_processed` (src/state.rs): a record must exist for
the path's string key and its stored `modified_time` must equal the given
one exactly. -/
def is_processed (st : Ledger) (file_path : RPath) (modified_time : Nat) : Bool :=
  match ledgerGet st file_path.render with
  | some processed => decide (processed.modified_time = modified_time)
  | none => false

/-- `HashMap::insert`: replace the entry under the key, or add one. -/
def ledgerInsert (key : String) (processed_file : ProcessedFile) : Ledger → Ledger
  | [] => [(key, processed_file)]
  | kv :: rest =>
      if kv.1 = key then (key, processed_file) :: rest
      else kv :: ledgerInsert key processed_file rest

/-- `StateManager::mark_processed` (src/state.rs): `HashMap::insert` by
the record's path string (upsert), followed by a synchronous save (the
persisted document equals the in-memory map). -/
def mark_processed (st : Ledger) (processed_file : ProcessedFile) : Ledger :=
  ledgerInsert processed_file.path.render processed_file st

/-- `StateManager::get_stats` (src/state.rs): record count, total bytes
saved with `u64::saturating_sub` (which is `Nat` subtraction), and the
mean stored reduction percentage. -/
def get_stats (st : Ledger) : Nat × Nat × ℚ :=
  let count := st.length
  let total_saved := (st.map (fun kv => kv.2.original_size - kv.2.optimized_size)).sum
  let avg_reduction : ℚ :=
    if count > 0 then (st.map (fun kv => kv.2.reduction_percent)).sum / (count : ℚ)
    else 0
  (count, total_saved, avg_reduction)

end StateManager

/-- Outcome of one pipeline step/file: the filesystem and ledger after the
step, the returned record (`none` models `Ok(None)`, a skip), and whether
`FileManager::replace_file` was invoked and succeeded. -/
structure TaskResult where
  fs : FS
  ledger : Ledger
  result : Option ProcessedFile
  replaced : Bool

namespace TaskOptimizer

/-- `TaskOptimizer::get_expected_output_path` delegates to
`PathResolver::get_output_path` (src/optimizer/task_optimizer.rs). -/
def get_expected_output_path (config : Config) (input_base_dir input_path : RPath) :
    Option RPath :=
  PathResolver.get_output_path input_path input_base_dir config

/-- `TaskOptimizer::should_skip_file` (src/optimizer/task_optimizer.rs):
in-place mode consults the ledger by (path, mtime); output-directory mode
with `keep_processed` checks existence of the resolved output; `none`
models a propagated resolver error. -/
def should_skip_file (config : Config) (input_base_dir : RPath) (st : Ledger)
    (fs : FS) (file_path : RPath) (modified_time : Nat) : Option Bool :=
  match config.output_path with
  | none => some (StateManager.is_processed st file_path modified_time)
  | some _ =>
      if config.keep_processed then
        match get_expected_output_path config input_base_dir file_path with
        | none => none
        | some expected_output_path => some (fs expected_output_path).isSome
      else some false

/-- `TaskOptimizer::handle_successful_optimization`
(src/optimizer/task_optimizer.rs).  Outside dry-run, in-place mode
replaces the original via `FileManager::replace_file` and then removes
the temporary; output-directory mode leaves the encoder output where it
is.  In dry-run the temporary is removed and nothing else touches the
filesystem.  The ledger update (`mark_processed`) is guarded only by
`output_path.is_none()`, not by `dry_run`.  `none` models a propagated
`replace_file` error. -/
def handle_successful_optimization (config : Config) (fs : FS) (st : Ledger)
    (file_path optimized_path : RPath) (processed_file : ProcessedFile)
    (rf : ReplaceFileFailure) : Option TaskResult :=
  match config.dry_run, config.output_path with
  | false, some _ =>
      some ⟨fs, st, some processed_file, false⟩
  | false, none =>
      match FileManager.replace_file fs file_path optimized_path rf with
      | (true, fs1) =>
          let fs2 := fsRemove fs1 optimized_path
          some ⟨fs2, StateManager.mark_processed st processed_file, some processed_file, true⟩
      | (false, _) => none
  | true, _ =>
      let fs1 := fsRemove fs optimized_path
      let st1 :=
        if config.output_path.isNone then StateManager.mark_processed st processed_file
        else st
      some ⟨fs1, st1, some processed_file, false⟩

/-- `TaskOptimizer::handle_insufficient_optimization`
(src/optimizer/task_optimizer.rs): re-read the original's metadata, build
a record with `optimized_size = original size`; in output-directory mode
outside dry-run copy the original verbatim over the resolved output path,
otherwise remove the temporary; mark the ledger only in in-place mode
(regardless of dry-run). -/
def handle_insufficient_optimization (config : Config) (input_base_dir : RPath)
    (fs : FS) (st : Ledger) (file_path optimized_path : RPath) (now : Nat) :
    Option TaskResult :=
  match fs file_path with
  | none => none
  | some metadata =>
    let skipped_file :=
      ProcessedFile.new file_path metadata.mtime metadata.size metadata.size now
    let fs1? : Option FS :=
      if config.output_path.isSome ∧ config.dry_run = false then
        match get_expected_output_path config input_base_dir file_path with
        | none => none
        | some original_output_path => some (fsSet fs original_output_path metadata)
      else some (fsRemove fs optimized_path)
    match fs1? with
    | none => none
    | some fs1 =>
        let st1 :=
          if config.output_path.isNone then StateManager.mark_processed st skipped_file
          else st
        some ⟨fs1, st1, some skipped_file, false⟩

/-- `TaskOptimizer::handle_optimization_result`
(src/optimizer/task_optimizer.rs): the replacement decision
`(optimized_size as f64) < (original_size as f64) * size_threshold`,
modelled by the exact rational comparison in cross-multiplied integer
form (`shouldReplace_iff` below recovers the `ℚ` inequality), routes to
the successful or the insufficient handler. -/
def handle_optimization_result (config : Config) (input_base_dir : RPath)
    (fs : FS) (st : Ledger) (file_path optimized_path : RPath)
    (processed_file : ProcessedFile) (rf : ReplaceFileFailure) (now : Nat) :
    Option TaskResult :=
  let should_replace :=
    decide ((processed_file.optimized_size : ℤ) * config.size_threshold.den <
      (processed_file.original_size : ℤ) * config.size_threshold.num)
  if should_replace then
    handle_successful_optimization config fs st file_path optimized_path processed_file rf
  else
    handle_insufficient_optimization config input_base_dir fs st file_path optimized_path now

/-- `TaskOptimizer::process_single_file` (src/optimizer/task_optimizer.rs)
for an image file whose path is already canonical: fetch metadata, run the
skip check, let the encoder write `enc` at the processor's resolved output
path (collaborator contract: a successful output file appears at the path
the core passes), read the optimized size back, and hand over to
`handle_optimization_result`.  The video branch delegates to an external
video encoder and is not modelled. -/
def process_single_file (config : Config) (input_base_dir : RPath) (fs : FS)
    (st : Ledger) (file_path : RPath) (enc : FileData) (now : Nat)
    (rf : ReplaceFileFailure) : Option TaskResult :=
  match fs file_path with
  | none => none
  | some md =>
    let original_size := md.size
    let modified_time := md.mtime
    match should_skip_file config input_base_dir st fs file_path modified_time with
    | none => none
    | some true => some ⟨fs, st, none, false⟩
    | some false =>
        if FileManager.is_image file_path then
          let optimized_path := ImageProcessor.get_output_path config file_path input_base_dir
          let fs1 := fsSet fs optimized_path enc
          match fs1 optimized_path with
          | none => none
          | some od =>
              let processed_file :=
                ProcessedFile.new file_path modified_time original_size od.size now
              handle_optimization_result config input_base_dir fs1 st file_path
                optimized_path processed_file rf now
        else none

end TaskOptimizer

/-- A run with no I/O failures injected. -/
def noFailure : ReplaceFileFailure :=
  ⟨false, false, ⟨0, 0, 0⟩, false, false⟩

namespace Sha256

/-- Word arithmetic is modulo `2^32`. -/
def M32 : Nat := 4294967296

/-- Right rotation of a 32-bit word. -/
def rotr (n x : Nat) : Nat :=
  ((x >>> n) ||| (x <<< (32 - n))) % M32

/-- The first sixty-four primes; their cube and square roots seed the
round constants and the initial state. -/
def primes64 : List Nat :=
  [2, 3, 5, 7, 11, 13, 17, 19, 23, 29, 31, 37, 41, 43, 47, 53,
   59, 61, 67, 71, 73, 79, 83, 89, 97, 101, 103, 107, 109, 113, 127, 131,
   137, 139, 149, 151, 157, 163, 167, 173, 179, 181, 191, 193, 197, 199, 211, 223,
   227, 229, 233, 239, 241, 251, 257, 263, 269, 271, 277, 281, 283, 293, 307, 311]

/-- Integer cube root by descending binary search over forty bits. -/
def icbrt (n : Nat) : Nat :=
  (List.range 40).foldl
    (fun acc i =>
      let cand := acc + 2 ^ (39 - i)
      if cand ^ 3 ≤ n then cand else acc)
    0

/-- Integer square root by descending binary search over forty bits. -/
def isqrtB (n : Nat) : Nat :=
  (List.range 40).foldl
    (fun acc i =>
      let cand := acc + 2 ^ (39 - i)
      if cand * cand ≤ n then cand else acc)
    0

/-- The SHA-256 round constants: the first 32 fractional bits of the cube
roots of the first sixty-four primes. -/
def K : List Nat :=
  primes64.map (fun p => icbrt (p * 2 ^ 96) % M32)

/-- The SHA-256 initial state: the first 32 fractional bits of the square
roots of the first eight primes. -/
def Hinit : List Nat :=
  (primes64.take 8).map (fun p => isqrtB (p * 2 ^ 64) % M32)

/-- Merkle–Damgård padding: `0x80`, zeros to 56 mod 64, 64-bit big-endian
bit length. -/
def pad (msg : List Nat) : List Nat :=
  let len := msg.length
  let zeros := (119 - (len % 64)) % 64
  let bitlen := len * 8
  msg ++ [0x80] ++ List.replicate zeros 0 ++
    ((List.range 8).map (fun i => (bitlen >>> (8 * (7 - i))) % 256))

/-- Big-endian 32-bit word `i` of a 64-byte block. -/
def word (block : List Nat) (i : Nat) : Nat :=
  (block.getD (4 * i) 0) <<< 24 ||| (block.getD (4 * i + 1) 0) <<< 16 |||
    (block.getD (4 * i + 2) 0) <<< 8 ||| (block.getD (4 * i + 3) 0)

/-- The 64-entry message schedule of a block. -/
def schedule (block : List Nat) : List Nat :=
  let w16 := (List.range 16).map (word block)
  (List.range 48).foldl
    (fun w _ =>
      let n := w.length
      let w15 := w.getD (n - 15) 0
      let w2 := w.getD (n - 2) 0
      let s0 := (rotr 7 w15) ^^^ (rotr 18 w15) ^^^ (w15 >>> 3)
      let s1 := (rotr 17 w2) ^^^ (rotr 19 w2) ^^^ (w2 >>> 10)
      w ++ [(w.getD (n - 16) 0 + s0 + w.getD (n - 7) 0 + s1) % M32])
    w16

/-- One compression round on the state `[a,b,c,d,e,f,g,h]`. -/
def round (st : List Nat) (kw : Nat × Nat) : List Nat :=
  let a := st.getD 0 0
  let b := st.getD 1 0
  let c := st.getD 2 0
  let d := st.getD 3 0
  let e := st.getD 4 0
  let f := st.getD 5 0
  let g := st.getD 6 0
  let h := st.getD 7 0
  let s1 := (rotr 6 e) ^^^ (rotr 11 e) ^^^ (rotr 25 e)
  let ch := (e &&& f) ^^^ ((e ^^^ (M32 - 1)) &&& g)
  let temp1 := (h + s1 + ch + kw.1 + kw.2) % M32
  let s0 := (rotr 2 a) ^^^ (rotr 13 a) ^^^ (rotr 22 a)
  let maj := (a &&& b) ^^^ (a &&& c) ^^^ (b &&& c)
  let temp2 := (s0 + maj) % M32
  [(temp1 + temp2) % M32, a, b, c, (d + temp1) % M32, e, f, g]

/-- Compress one 64-byte block into the running hash state. -/
def compress (h : List Nat) (block : List Nat) : List Nat :=
  let w := schedule block
  let final := (K.zip w).foldl round h
  (h.zip final).map (fun xy => (xy.1 + xy.2) % M32)

/-- SHA-256 digest of a byte list, as 32 bytes. -/
def digest (msg : List Nat) : List Nat :=
  let padded := pad msg
  let nblocks := padded.length / 64
  let blocks := (List.range nblocks).map (fun i => (padded.drop (64 * i)).take 64)
  let hh := blocks.foldl compress Hinit
  (hh.map (fun w => [(w >>> 24) % 256, (w >>> 16) % 256, (w >>> 8) % 256, w % 256])).flatten

/-- Lower-case hex digit. -/
def hexChar (n : Nat) : Char :=
  if n < 10 then Char.ofNat (48 + n) else Char.ofNat (87 + n)

/-- Two hex digits of a byte. -/
def hexByte (b : Nat) : List Char :=
  [hexChar (b / 16), hexChar (b % 16)]

/-- UTF-8 bytes of a string (the paths in use are ASCII, where code
points and bytes coincide). -/
def strBytes (s : String) : List Nat :=
  s.data.map Char.toNat

/-- `hex::encode(Sha256::digest(s))[..16]`: the first 16 hex characters
of the digest, i.e. its first 8 bytes. -/
def hexDigestTrunc16 (s : String) : String :=
  ⟨(((digest (strBytes s)).take 8).map hexByte).flatten⟩

end Sha256

namespace StateManager

/-- The ledger file name computed by `StateManager::new` (src/state.rs):
the first 16 hex characters of the SHA-256 of the media directory path
string exactly as passed in — `media_dir.to_string_lossy()`, with no
canonicalisation — spliced into `processed_files_<hash>.json`. -/
def state_file_name (media_dir : String) : String :=
  "processed_files_" ++ Sha256.hexDigestTrunc16 media_dir ++ ".json"

end StateManager

/-- Filesystem of a pipeline outcome at a path (`none` when the pipeline
errored). -/
def resultFsAt (o : Option TaskResult) (p : RPath) : Option FileData :=
  match o with
  | some r => r.fs p
  | none => none

/-- Ledger of a pipeline outcome (empty when the pipeline errored). -/
def resultLedger (o : Option TaskResult) : Ledger :=
  match o with
  | some r => r.ledger
  | none => []

/-- Whether a pipeline outcome performed the in-place replacement. -/
def resultReplaced (o : Option TaskResult) : Bool :=
  match o with
  | some r => r.replaced
  | none => false

/-- The record a pipeline outcome reports. -/
def resultRecord (o : Option TaskResult) : Option ProcessedFile :=
  match o with
  | some r => r.result
  | none => none

/-- Fixture: the watched root. -/
def mediaRoot : RPath := RPath.parse "/media"

/-- Fixture: an input image inside the root. -/
def inputJpg : RPath := RPath.parse "/media/a.jpg"

/-- Fixture: in-place configuration with the default 0.9 threshold. -/
def cfgInPlace : Config :=
  { size_threshold := mkRat 9 10, dry_run := false, output_path := none,
    convert_to_webp := false, keep_processed := false }

/-- Fixture: the in-place configuration with dry-run switched on. -/
def cfgInPlaceDry : Config :=
  { cfgInPlace with dry_run := true }

/-- Fixture: output-directory configuration targeting `/out`. -/
def cfgOutput : Config :=
  { cfgInPlace with output_path := some (RPath.parse "/out") }

/-- Fixture: a filesystem holding just the input image (content id 1,
100 bytes, mtime 5). -/
def fsSingle : FS :=
  fun q => if q = inputJpg then some ⟨1, 100, 5⟩ else none

/-- Fixture: a temporary encoder output path distinct from the input. -/
def optJpg : RPath := RPath.parse "/media/opt.jpg"

/-- Fixture: a filesystem holding the input image and an encoder result
at `optJpg` (content id 2, 80 bytes). -/
def fsTwo : FS :=
  fun q =>
    if q = inputJpg then some ⟨1, 100, 5⟩
    else if q = optJpg then some ⟨2, 80, 6⟩
    else none

/-- Fixture: the record the pipeline builds for `inputJpg` when the
encoder returns 80 of 100 bytes. -/
def pfC1 : ProcessedFile := ProcessedFile.new inputJpg 5 100 80 7

/-- Fixture: the resolved output of `inputJpg` under `/out`. -/
def outAJpg : RPath := RPath.parse "/out/a.jpg"

/-- Fixture: a filesystem holding the input image and the encoder result
already written at `outAJpg` (content id 2, 95 bytes). -/
def fsOut : FS :=
  fun q =>
    if q = inputJpg then some ⟨1, 100, 5⟩
    else if q = outAJpg then some ⟨2, 95, 6⟩
    else none

/-- Fixture: the record for an insufficient optimisation (95 of 100
bytes at threshold 9/10). -/
def pfC3 : ProcessedFile := ProcessedFile.new inputJpg 5 100 95 7

/-- Fixture: a one-record ledger whose record grew (120 from 100
bytes), exercising the saturating subtraction in the statistics. -/
def grownLedger : Ledger :=
  [(inputJpg.render, ProcessedFile.new inputJpg 5 100 120 7)]

/-!
Sanity checks: the path model against the behaviour of Rust `std::path`
and the resolver scenarios of the specification.
-/

example : FileManager.is_image (RPath.parse "/media/a.JPG") = true := by decide
example : FileManager.is_video (RPath.parse "/media/v.mp4") = true := by decide
example : RPath.fileStem (RPath.parse "/media/archive.tar.gz") = some "archive.tar" := by decide
example : RPath.extension (RPath.parse "/media/archive.tar.gz") = some "gz" := by decide
example : RPath.extension (RPath.parse "/media/.hidden") = none := by decide
example : RPath.canonicalize (RPath.parse "/media/.") = RPath.parse "/media" := by decide
example : RPath.stripPrefixOf (RPath.parse "/media/x/y.png") (RPath.parse "/media")
    = some ⟨false, ["x", "y.png"]⟩ := by decide
example : RPath.stripPrefixOf (RPath.parse "/other/a.jpg") (RPath.parse "/media") = none := by decide
example : RPath.join (RPath.parse "/out") (RPath.parse "/other/x") = RPath.parse "/other/x" := by
  decide
example : RPath.render (RPath.parse "/media/x/y.png") = "/media/x/y.png" := by decide

section ResolverChecks

/-- In-place, no conversion: the resolver maps the input to itself. -/
example :
    PathResolver.get_output_path (RPath.parse "/media/a.jpg") (RPath.parse "/media")
      { size_threshold := 9/10, dry_run := false, output_path := none,
        convert_to_webp := false, keep_processed := false }
    = some (RPath.parse "/media/a.jpg") := by decide

/-- Output-directory mode, structure preserved: `/media/x/y.png ↦ /out/x/y.png`. -/
example :
    PathResolver.get_output_path (RPath.parse "/media/x/y.png") (RPath.parse "/media")
      { size_threshold := 9/10, dry_run := false, output_path := some (RPath.parse "/out"),
        convert_to_webp := false, keep_processed := false }
    = some (RPath.parse "/out/x/y.png") := by decide

/-- Output-directory mode with conversion: `/media/x/y.png ↦ /out/x/y.webp`. -/
example :
    PathResolver.get_output_path (RPath.parse "/media/x/y.png") (RPath.parse "/media")
      { size_threshold := 9/10, dry_run := false, output_path := some (RPath.parse "/out"),
        convert_to_webp := true, keep_processed := false }
    = some (RPath.parse "/out/x/y.webp") := by decide

/-- Escaping input: the absolute parent replaces the output root under
`join`, so the "fallback" leaves the output tree entirely. -/
example :
    PathResolver.get_output_path (RPath.parse "/other/x/a.jpg") (RPath.parse "/media")
      { size_threshold := 9/10, dry_run := false, output_path := some (RPath.parse "/out"),
        convert_to_webp := false, keep_processed := false }
    = some (RPath.parse "/other/x/a.jpg") := by decide

end ResolverChecks

/-- The integer cross-multiplied form of the replacement decision is the
exact rational comparison from the source. -/
theorem shouldReplace_iff (opt orig : ℕ) (t : ℚ) :
    ((opt : ℤ) * t.den < (orig : ℤ) * t.num) ↔ ((opt : ℚ) < (orig : ℚ) * t) := by
  have hden : (0 : ℚ) < (t.den : ℚ) := by exact_mod_cast t.den_pos
  have ht : (orig : ℚ) * t = ((orig : ℚ) * t.num) / (t.den : ℚ) := by
    rw [mul_div_assoc, Rat.num_div_den]
  rw [ht, lt_div_iff₀ hden]
  exact_mod_cast Iff.rfl

/-- The stored reduction percentage equals the exact value of the source
expression `(1 - optimized/original) * 100`. -/
theorem reductionPercent_eq (o n : ℕ) (hn : 0 < n) :
    mkRat (((n : ℤ) - (o : ℤ)) * 100) n = (1 - (o : ℚ) / (n : ℚ)) * 100 := by
  have hzero : (n : ℚ) ≠ 0 := by exact_mod_cast hn.ne'
  rw [Rat.mkRat_eq_div]
  push_cast
  field_simp

/-- C2: in dry-run, in-place mode on `/media/a.jpg` (extension preserved),
the resolver maps the encoder's output onto the input path itself; the
encoder therefore overwrites the input and the dry-run cleanup then
deletes it, so the input's bytes do NOT survive a dry run, contradicting
both the claim and the program's own "Dry run mode: No files will be
modified" message. -/
theorem C2_dry_run_mutates_input :
    fsSingle inputJpg = some ⟨1, 100, 5⟩ ∧
    (TaskOptimizer.process_single_file cfgInPlaceDry mediaRoot fsSingle []
        inputJpg ⟨2, 50, 6⟩ 7 noFailure).isSome = true ∧
    resultFsAt (TaskOptimizer.process_single_file cfgInPlaceDry mediaRoot fsSingle []
        inputJpg ⟨2, 50, 6⟩ 7 noFailure) inputJpg = none ∧
    resultRecord (TaskOptimizer.process_single_file cfgInPlaceDry mediaRoot fsSingle []
        inputJpg ⟨2, 50, 6⟩ 7 noFailure)
      = some (ProcessedFile.new inputJpg 5 100 50 7) := by
  decide

/-- C3 counterexample: output-directory mode, encoder result 95 bytes vs
100-byte original at threshold 0.9: the pipeline overwrites the encoded
result at `/out/a.jpg` with the original's bytes, so the encoded result
is NOT always kept. -/
theorem C3_counterexample :
    (TaskOptimizer.process_single_file cfgOutput mediaRoot fsSingle []
        inputJpg ⟨2, 95, 6⟩ 7 noFailure).isSome = true ∧
    resultFsAt (TaskOptimizer.process_single_file cfgOutput mediaRoot fsSingle []
        inputJpg ⟨2, 95, 6⟩ 7 noFailure) (RPath.parse "/out/a.jpg")
      = some ⟨1, 100, 5⟩ ∧
    (⟨1, 100, 5⟩ : FileData) ≠ ⟨2, 95, 6⟩ := by
  decide

/-- C4 counterexample: `/other/x/a.jpg` cannot be stripped of the root
`/media`; the fallback joins the absolute parent `/other/x`, which under
`Path::join` replaces the output root `/out`, so the resolver yields
`/other/x/a.jpg` — outside the output root and not of the form
`/out/x/a.jpg`. -/
theorem C4_counterexample :
    PathResolver.get_output_path (RPath.parse "/other/x/a.jpg") mediaRoot cfgOutput
      = some (RPath.parse "/other/x/a.jpg") ∧
    (RPath.parse "/other/x/a.jpg").stripPrefixOf (RPath.parse "/out") = none ∧
    RPath.parse "/other/x/a.jpg" ≠ RPath.parse "/out/x/a.jpg" := by
  decide

/-- C8 counterexample: in in-place mode without format conversion the
resolver's output path for `/media/a.jpg` IS the original path itself,
so it is not true that the resolved path never equals the original
name. -/
theorem C8_counterexample :
    PathResolver.get_output_path inputJpg mediaRoot cfgInPlace = some inputJpg := by
  decide

/-- C1: in in-place mode (no output root) outside dry-run, the pipeline
invokes the in-place replacement if and only if
`optimized_size < original_size * size_threshold` with a strict
comparison; when it does, the original path ends up holding the encoder
result, and in the boundary case of exact equality the original's bytes
are kept and nothing is replaced. -/
theorem C1_threshold_law
    (config : Config) (input_base_dir : RPath) (fs : FS) (st : Ledger)
    (file_path optimized_path : RPath) (pf : ProcessedFile) (now : Nat)
    (origData encData : FileData)
    (hip : config.output_path = none) (hdry : config.dry_run = false)
    (h1 : fs file_path = some origData) (h2 : fs optimized_path = some encData)
    (hof : optimized_path ≠ file_path)
    (hob : optimized_path ≠ FileManager.backup_path file_path)
    (hfb : file_path ≠ FileManager.backup_path file_path) :
    (TaskOptimizer.handle_optimization_result config input_base_dir fs st file_path
        optimized_path pf noFailure now).isSome = true ∧
    (resultReplaced (TaskOptimizer.handle_optimization_result config input_base_dir fs st
        file_path optimized_path pf noFailure now) = true ↔
      (pf.optimized_size : ℚ) < (pf.original_size : ℚ) * config.size_threshold) ∧
    ((pf.optimized_size : ℚ) < (pf.original_size : ℚ) * config.size_threshold →
      resultFsAt (TaskOptimizer.handle_optimization_result config input_base_dir fs st
        file_path optimized_path pf noFailure now) file_path = some encData) ∧
    ((pf.optimized_size : ℚ) = (pf.original_size : ℚ) * config.size_threshold →
      resultReplaced (TaskOptimizer.handle_optimization_result config input_base_dir fs st
        file_path optimized_path pf noFailure now) = false ∧
      resultFsAt (TaskOptimizer.handle_optimization_result config input_base_dir fs st
        file_path optimized_path pf noFailure now) file_path = some origData) := by
  have hiff := shouldReplace_iff pf.optimized_size pf.original_size config.size_threshold
  by_cases hlt : (pf.optimized_size : ℚ) < (pf.original_size : ℚ) * config.size_threshold
  · have hb : ((pf.optimized_size : ℤ) * config.size_threshold.den <
        (pf.original_size : ℤ) * config.size_threshold.num) := hiff.mpr hlt
    refine ⟨?_, ?_, ?_, ?_⟩ <;>
      simp [TaskOptimizer.handle_optimization_result,
        TaskOptimizer.handle_successful_optimization, FileManager.replace_file,
        noFailure, fsSet, fsRemove, resultFsAt, resultReplaced,
        hip, hdry, hb, h1, h2, hof, hfb, hob, Ne.symm hof, Ne.symm hfb, Ne.symm hob, hlt]
    intro heq
    rw [heq] at hlt
    exact absurd hlt (lt_irrefl _)
  · have hb : ¬ ((pf.optimized_size : ℤ) * config.size_threshold.den <
        (pf.original_size : ℤ) * config.size_threshold.num) := fun h => hlt (hiff.mp h)
    refine ⟨?_, ?_, ?_, ?_⟩ <;>
      simp [TaskOptimizer.handle_optimization_result,
        TaskOptimizer.handle_insufficient_optimization,
        fsSet, fsRemove, resultFsAt, resultReplaced,
        hip, hdry, hb, h1, hof, hfb, hob, Ne.symm hof, Ne.symm hfb, Ne.symm hob, hlt]

/-- C1 witness: the threshold law instantiated at `/media/a.jpg`,
100 bytes original, 80 bytes encoded, threshold 9/10. -/
theorem C1_threshold_law_witness :
    (TaskOptimizer.handle_optimization_result cfgInPlace mediaRoot fsTwo [] inputJpg
        optJpg pfC1 noFailure 7).isSome = true ∧
    (resultReplaced (TaskOptimizer.handle_optimization_result cfgInPlace mediaRoot fsTwo []
        inputJpg optJpg pfC1 noFailure 7) = true ↔
      (pfC1.optimized_size : ℚ) < (pfC1.original_size : ℚ) * cfgInPlace.size_threshold) ∧
    ((pfC1.optimized_size : ℚ) < (pfC1.original_size : ℚ) * cfgInPlace.size_threshold →
      resultFsAt (TaskOptimizer.handle_optimization_result cfgInPlace mediaRoot fsTwo []
        inputJpg optJpg pfC1 noFailure 7) inputJpg = some ⟨2, 80, 6⟩) ∧
    ((pfC1.optimized_size : ℚ) = (pfC1.original_size : ℚ) * cfgInPlace.size_threshold →
      resultReplaced (TaskOptimizer.handle_optimization_result cfgInPlace mediaRoot fsTwo []
        inputJpg optJpg pfC1 noFailure 7) = false ∧
      resultFsAt (TaskOptimizer.handle_optimization_result cfgInPlace mediaRoot fsTwo []
        inputJpg optJpg pfC1 noFailure 7) inputJpg = some ⟨1, 100, 5⟩) :=
  C1_threshold_law cfgInPlace mediaRoot fsTwo [] inputJpg optJpg pfC1 7
    ⟨1, 100, 5⟩ ⟨2, 80, 6⟩ (by decide) (by decide) (by decide) (by decide)
    (by decide) (by decide) (by decide)

/-- Key lookup after a ledger upsert finds the inserted record. -/
theorem ledgerGet_insert (key : String) (pf : ProcessedFile) (st : Ledger) :
    ledgerGet (StateManager.ledgerInsert key pf st) key = some pf := by
  induction st with
  | nil => simp [StateManager.ledgerInsert, ledgerGet]
  | cons kv rest ih =>
      by_cases h : kv.1 = key
      · simp [StateManager.ledgerInsert, ledgerGet, h]
      · simp only [StateManager.ledgerInsert, if_neg h]
        simpa [ledgerGet, List.find?, h] using ih

/-- Casting a truncated `Nat` subtraction to `ℤ` yields the clamped
difference. -/
theorem natSub_castInt (a b : ℕ) : ((a - b : ℕ) : ℤ) = max ((a : ℤ) - (b : ℤ)) 0 := by
  omega

/-- C3 (amended): with an output root configured and outside dry-run, the
encoded result is kept at the resolved output path if and only if
`optimized_size < original_size * size_threshold`; otherwise the pipeline
copies the original's bytes over that path, replacing the encoder's
result. -/
theorem C3_output_mode_keeps_encoded_iff_threshold
    (config : Config) (input_base_dir output_dir : RPath) (fs : FS) (st : Ledger)
    (file_path optimized_path : RPath) (pf : ProcessedFile) (now : Nat)
    (origData encData : FileData)
    (ho : config.output_path = some output_dir) (hdry : config.dry_run = false)
    (hres : TaskOptimizer.get_expected_output_path config input_base_dir file_path
      = some optimized_path)
    (h1 : fs file_path = some origData) (h2 : fs optimized_path = some encData)
    (hne : origData ≠ encData) :
    (TaskOptimizer.handle_optimization_result config input_base_dir fs st file_path
        optimized_path pf noFailure now).isSome = true ∧
    (resultFsAt (TaskOptimizer.handle_optimization_result config input_base_dir fs st
        file_path optimized_path pf noFailure now) optimized_path = some encData ↔
      (pf.optimized_size : ℚ) < (pf.original_size : ℚ) * config.size_threshold) ∧
    (¬ ((pf.optimized_size : ℚ) < (pf.original_size : ℚ) * config.size_threshold) →
      resultFsAt (TaskOptimizer.handle_optimization_result config input_base_dir fs st
        file_path optimized_path pf noFailure now) optimized_path = some origData) := by
  have hiff := shouldReplace_iff pf.optimized_size pf.original_size config.size_threshold
  by_cases hlt : (pf.optimized_size : ℚ) < (pf.original_size : ℚ) * config.size_threshold
  · have hb : ((pf.optimized_size : ℤ) * config.size_threshold.den <
        (pf.original_size : ℤ) * config.size_threshold.num) := hiff.mpr hlt
    refine ⟨?_, ?_, ?_⟩ <;>
      simp [TaskOptimizer.handle_optimization_result,
        TaskOptimizer.handle_successful_optimization,
        resultFsAt, ho, hdry, hb, h1, h2, hlt]
  · have hb : ¬ ((pf.optimized_size : ℤ) * config.size_threshold.den <
        (pf.original_size : ℤ) * config.size_threshold.num) := fun h => hlt (hiff.mp h)
    refine ⟨?_, ?_, ?_⟩ <;>
      simp [TaskOptimizer.handle_optimization_result,
        TaskOptimizer.handle_insufficient_optimization,
        resultFsAt, fsSet, ho, hdry, hb, h1, hres, hlt, hne, Ne.symm hne]

/-- C3 witness: at 95 of 100 bytes with threshold 9/10, the output path
`/out/a.jpg` ends up holding the original's bytes. -/
theorem C3_output_mode_keeps_encoded_iff_threshold_witness :
    (TaskOptimizer.handle_optimization_result cfgOutput mediaRoot fsOut [] inputJpg
        outAJpg pfC3 noFailure 7).isSome = true ∧
    (resultFsAt (TaskOptimizer.handle_optimization_result cfgOutput mediaRoot fsOut []
        inputJpg outAJpg pfC3 noFailure 7) outAJpg = some ⟨2, 95, 6⟩ ↔
      (pfC3.optimized_size : ℚ) < (pfC3.original_size : ℚ) * cfgOutput.size_threshold) ∧
    (¬ ((pfC3.optimized_size : ℚ) < (pfC3.original_size : ℚ) * cfgOutput.size_threshold) →
      resultFsAt (TaskOptimizer.handle_optimization_result cfgOutput mediaRoot fsOut []
        inputJpg outAJpg pfC3 noFailure 7) outAJpg = some ⟨1, 100, 5⟩) :=
  C3_output_mode_keeps_encoded_iff_threshold cfgOutput mediaRoot (RPath.parse "/out")
    fsOut [] inputJpg outAJpg pfC3 7 ⟨1, 100, 5⟩ ⟨2, 95, 6⟩
    (by decide) (by decide) (by decide) (by decide) (by decide) (by decide)

/-- C4 (amended): when stripping the canonical input root fails, the
resolver still returns a deterministic path without error, but because
`Path::join` with the input's absolute parent replaces the output root,
the fallback result is `parent(input)/new_filename` — the input's own
directory — rather than a location under the output root. -/
theorem C4_escape_fallback_is_input_directory
    (input_path input_base_dir output_dir : RPath) (config : Config) (s : String)
    (ho : config.output_path = some output_dir)
    (hstem : input_path.fileStem = some s)
    (hst : input_path.stripPrefixOf input_base_dir.canonicalize = none)
    (habs : input_path.absolute = true)
    (hcomp : input_path.components ≠ []) :
    PathResolver.get_output_path input_path input_base_dir config
      = some (input_path.withFileName
          (s ++ "." ++ PathResolver.get_output_extension input_path config)) := by
  obtain ⟨abs, comps⟩ := input_path
  cases comps with
  | nil => exact absurd rfl hcomp
  | cons hd tl =>
      subst habs
      simp [PathResolver.get_output_path, PathResolver.resolve_output_directory_path,
        hstem, ho, hst, RPath.parent, RPath.join, RPath.joinName, RPath.withFileName]

/-- C4 witness: `/other/x/a.jpg` against root `/media` and output `/out`
resolves to a path in `/other/x`, its own directory. -/
theorem C4_escape_fallback_is_input_directory_witness :
    PathResolver.get_output_path (RPath.parse "/other/x/a.jpg") mediaRoot cfgOutput
      = some ((RPath.parse "/other/x/a.jpg").withFileName
          ("a" ++ "." ++ PathResolver.get_output_extension
            (RPath.parse "/other/x/a.jpg") cfgOutput)) :=
  C4_escape_fallback_is_input_directory (RPath.parse "/other/x/a.jpg") mediaRoot
    (RPath.parse "/out") cfgOutput "a"
    (by decide) (by decide) (by decide) (by decide) (by decide)

/-- C5: `is_processed` returns true exactly when the ledger holds a
record under the path's string key whose stored `modified_time` equals
the given one; and after `mark_processed`, the next in-place run's skip
check on the recorded path and time answers skip. -/
theorem C5_exact_match_skip
    (config : Config) (input_base_dir : RPath) (st : Ledger) (fs : FS)
    (file_path : RPath) (mt : Nat) (pf : ProcessedFile)
    (hip : config.output_path = none) :
    (StateManager.is_processed st file_path mt = true ↔
      (ledgerGet st file_path.render).map ProcessedFile.modified_time = some mt) ∧
    TaskOptimizer.should_skip_file config input_base_dir
      (StateManager.mark_processed st pf) fs pf.path pf.modified_time = some true := by
  constructor
  · unfold StateManager.is_processed
    cases hg : ledgerGet st file_path.render <;> simp [hg]
  · unfold TaskOptimizer.should_skip_file
    rw [hip]
    unfold StateManager.is_processed StateManager.mark_processed
    rw [ledgerGet_insert]
    simp

/-- C5 witness: the exact-match contract at `/media/a.jpg`, mtime 5, on
the empty ledger plus the freshly marked record. -/
theorem C5_exact_match_skip_witness :
    (StateManager.is_processed [] inputJpg 5 = true ↔
      (ledgerGet [] inputJpg.render).map ProcessedFile.modified_time = some 5) ∧
    TaskOptimizer.should_skip_file cfgInPlace mediaRoot
      (StateManager.mark_processed [] pfC1) fsSingle pfC1.path pfC1.modified_time
      = some true :=
  C5_exact_match_skip cfgInPlace mediaRoot [] fsSingle inputJpg 5 pfC1 (by decide)

/-- C6: `replace_file` copies the original to a backup, copies the
optimized file over the original and removes the backup; when the
overwrite succeeds the original holds the optimized bytes, and when it
fails the original is restored from the backup and the error is
reported — in every outcome the original path still holds a file. -/
theorem C6_backup_swap_restore
    (fs : FS) (original optimized : RPath) (f : ReplaceFileFailure)
    (origData : FileData)
    (h1 : fs original = some origData)
    (hb : f.backup_copy_fails = false)
    (hr : f.restore_copy_fails = false)
    (hrb : f.remove_backup_fails = false)
    (hob : optimized ≠ FileManager.backup_path original)
    (hfb : original ≠ FileManager.backup_path original) :
    ((FileManager.replace_file fs original optimized f).1 = true →
      (FileManager.replace_file fs original optimized f).2 original = fs optimized ∧
      (FileManager.replace_file fs original optimized f).2
        (FileManager.backup_path original) = none) ∧
    ((FileManager.replace_file fs original optimized f).1 = false →
      (FileManager.replace_file fs original optimized f).2 original = some origData ∧
      (FileManager.replace_file fs original optimized f).2
        (FileManager.backup_path original) = none) ∧
    (((FileManager.replace_file fs original optimized f).2 original).isSome = true) := by
  cases hm : f.main_copy_fails with
  | true =>
      refine ⟨?_, ?_, ?_⟩ <;>
        simp [FileManager.replace_file, h1, hb, hm, hr, hrb, fsSet, fsRemove,
          hob, hfb, Ne.symm hob, Ne.symm hfb]
  | false =>
      cases hopt : fs optimized with
      | none =>
          refine ⟨?_, ?_, ?_⟩ <;>
            simp [FileManager.replace_file, h1, hb, hm, hr, hrb, hopt, fsSet, fsRemove,
              hob, hfb, Ne.symm hob, Ne.symm hfb]
      | some optData =>
          refine ⟨?_, ?_, ?_⟩ <;>
            simp [FileManager.replace_file, h1, hb, hm, hr, hrb, hopt, fsSet, fsRemove,
              hob, hfb, Ne.symm hob, Ne.symm hfb]

/-- C6 witness: replacing `/media/a.jpg` with `/media/opt.jpg` under no
injected failures. -/
theorem C6_backup_swap_restore_witness :
    ((FileManager.replace_file fsTwo inputJpg optJpg noFailure).1 = true →
      (FileManager.replace_file fsTwo inputJpg optJpg noFailure).2 inputJpg
        = fsTwo optJpg ∧
      (FileManager.replace_file fsTwo inputJpg optJpg noFailure).2
        (FileManager.backup_path inputJpg) = none) ∧
    ((FileManager.replace_file fsTwo inputJpg optJpg noFailure).1 = false →
      (FileManager.replace_file fsTwo inputJpg optJpg noFailure).2 inputJpg
        = some ⟨1, 100, 5⟩ ∧
      (FileManager.replace_file fsTwo inputJpg optJpg noFailure).2
        (FileManager.backup_path inputJpg) = none) ∧
    (((FileManager.replace_file fsTwo inputJpg optJpg noFailure).2 inputJpg).isSome
      = true) :=
  C6_backup_swap_restore fsTwo inputJpg optJpg noFailure ⟨1, 100, 5⟩
    (by decide) (by decide) (by decide) (by decide) (by decide) (by decide)

set_option maxRecDepth 1000000

/-- C7 counterexample: `/media` and `/media/.` are two spellings of the
same root (their canonicalisations coincide), yet the ledger file name is
the hash of the spelling as passed in — `StateManager::new` never
canonicalises — so the two runs use different ledger files. -/
theorem C7_counterexample :
    RPath.canonicalize (RPath.parse "/media") = RPath.canonicalize (RPath.parse "/media/.") ∧
    "/media" ≠ "/media/." ∧
    StateManager.state_file_name "/media" ≠ StateManager.state_file_name "/media/." := by
  decide

/-- C7 (amended): the ledger file name is derived from the truncated
SHA-256 of the root path string exactly as given (not canonicalised):
whenever the truncated hashes of two root spellings differ, the derived
ledger file names differ, so such runs never share a ledger file. -/
theorem C7_filename_from_raw_path_hash (p q : String)
    (h : Sha256.hexDigestTrunc16 p ≠ Sha256.hexDigestTrunc16 q) :
    StateManager.state_file_name p ≠ StateManager.state_file_name q := by
  intro he
  apply h
  unfold StateManager.state_file_name at he
  have hd := congrArg String.data he
  simp only [String.data_append] at hd
  exact String.ext (List.append_cancel_left (List.append_cancel_right hd))

/-- C7 witness: the disjoint roots `/data/photos` and `/data/videos`
derive distinct ledger files. -/
theorem C7_filename_from_raw_path_hash_witness :
    Sha256.hexDigestTrunc16 "/data/photos" ≠ Sha256.hexDigestTrunc16 "/data/videos" ∧
    StateManager.state_file_name "/data/photos" ≠ StateManager.state_file_name "/data/videos" :=
  ⟨by decide, C7_filename_from_raw_path_hash "/data/photos" "/data/videos" (by decide)⟩

/-- C8 (amended): in in-place mode the resolver's output path is the
input's directory with the file name `stem.output_extension`; this
coincides with the original path whenever the output extension equals the
input's own extension (e.g. a `.jpg` without WebP conversion), and
differs only when the extension changes. -/
theorem C8_in_place_same_directory
    (input_path input_base_dir : RPath) (config : Config) (s : String)
    (hip : config.output_path = none)
    (hstem : input_path.fileStem = some s)
    (hcomp : input_path.components ≠ []) :
    PathResolver.get_output_path input_path input_base_dir config
      = some (input_path.withFileName
          (s ++ "." ++ PathResolver.get_output_extension input_path config)) ∧
    (input_path.withFileName
        (s ++ "." ++ PathResolver.get_output_extension input_path config)).parent
      = input_path.parent := by
  obtain ⟨abs, comps⟩ := input_path
  cases comps with
  | nil => exact absurd rfl hcomp
  | cons hd tl =>
      refine ⟨?_, ?_⟩
      · simp [PathResolver.get_output_path, hstem, hip]
      · simp [RPath.withFileName, RPath.parent]
        cases h : (hd :: tl).dropLast ++ [s ++ "." ++
            PathResolver.get_output_extension ⟨abs, hd :: tl⟩ config] with
        | nil => simp at h
        | cons a b => simp [← h, List.dropLast_concat]

/-- C8 witness: the in-place resolution of `/media/a.jpg` lands in
`/media` with the recomputed file name. -/
theorem C8_in_place_same_directory_witness :
    PathResolver.get_output_path inputJpg mediaRoot cfgInPlace
      = some (inputJpg.withFileName
          ("a" ++ "." ++ PathResolver.get_output_extension inputJpg cfgInPlace)) ∧
    (inputJpg.withFileName
        ("a" ++ "." ++ PathResolver.get_output_extension inputJpg cfgInPlace)).parent
      = inputJpg.parent :=
  C8_in_place_same_directory inputJpg mediaRoot cfgInPlace "a"
    (by decide) (by decide) (by decide)

/-- C9: the ledger update sits outside the dry-run guard — in in-place
mode the pipeline marks the file processed (and a later in-place skip
check on the same path and mtime answers skip) even when `dry_run` is
set, in both the replace-worthy and the insufficient branches. -/
theorem C9_ledger_updated_in_dry_run
    (config : Config) (input_base_dir : RPath) (fs fs2 : FS) (st : Ledger)
    (file_path optimized_path : RPath) (pf : ProcessedFile)
    (rf : ReplaceFileFailure) (now : Nat) (md : FileData)
    (hip : config.output_path = none) (hdry : config.dry_run = true)
    (h1 : fs file_path = some md)
    (hpf : pf.path = file_path) (hmt : pf.modified_time = md.mtime) :
    (TaskOptimizer.handle_optimization_result config input_base_dir fs st file_path
        optimized_path pf rf now).isSome = true ∧
    TaskOptimizer.should_skip_file config input_base_dir
      (resultLedger (TaskOptimizer.handle_optimization_result config input_base_dir fs st
        file_path optimized_path pf rf now))
      fs2 file_path md.mtime = some true := by
  unfold TaskOptimizer.handle_optimization_result
  by_cases hb : ((pf.optimized_size : ℤ) * config.size_threshold.den <
      (pf.original_size : ℤ) * config.size_threshold.num)
  · simp only [hb, decide_eq_true_eq, if_pos, decide_eq_true]
    unfold TaskOptimizer.handle_successful_optimization
    rw [hdry]
    simp only [hip, Option.isNone_none, if_pos, resultLedger, Option.isSome_some,
      true_and]
    unfold TaskOptimizer.should_skip_file
    rw [hip]
    unfold StateManager.is_processed StateManager.mark_processed
    rw [hpf]
    simp [ledgerGet_insert, hmt]
  · simp only [hb, decide_eq_true_eq, if_neg, decide_eq_false, Bool.false_eq_true,
      if_false]
    unfold TaskOptimizer.handle_insufficient_optimization
    rw [h1]
    simp only [hip, Option.isSome_none, hdry, Bool.false_and, false_and, if_neg,
      Option.isNone_none, if_pos, resultLedger, Option.isSome_some, true_and]
    unfold TaskOptimizer.should_skip_file
    rw [hip]
    unfold StateManager.is_processed StateManager.mark_processed
    simp [ProcessedFile.new, ledgerGet_insert]

/-- C9 witness: a dry in-place run over `/media/a.jpg` still marks the
ledger, and the follow-up skip check at mtime 5 answers skip. -/
theorem C9_ledger_updated_in_dry_run_witness :
    (TaskOptimizer.handle_optimization_result cfgInPlaceDry mediaRoot fsSingle []
        inputJpg optJpg pfC1 noFailure 7).isSome = true ∧
    TaskOptimizer.should_skip_file cfgInPlaceDry mediaRoot
      (resultLedger (TaskOptimizer.handle_optimization_result cfgInPlaceDry mediaRoot
        fsSingle [] inputJpg optJpg pfC1 noFailure 7))
      fsSingle inputJpg (5 : Nat) = some true := by
  have h := C9_ledger_updated_in_dry_run cfgInPlaceDry mediaRoot fsSingle fsSingle []
    inputJpg optJpg pfC1 noFailure 7 ⟨1, 100, 5⟩
    (by decide) (by decide) (by decide) (by decide) (by decide)
  exact h

/-- C10: ledger arithmetic is total — `ProcessedFile::new` sets the
reduction to 0 when the original size is 0 and otherwise to the exact
value of `(1 - optimized/original) * 100`, and the statistics' total
bytes saved is the clamped (saturating) sum, so records that grew never
underflow. -/
theorem C10_total_arithmetic
    (p : RPath) (mt origS optS t : Nat) (st : Ledger) (h : 0 < origS) :
    ((ProcessedFile.new p mt 0 optS t).reduction_percent = 0) ∧
    ((ProcessedFile.new p mt origS optS t).reduction_percent
       = (1 - (optS : ℚ) / (origS : ℚ)) * 100) ∧
    (((StateManager.get_stats st).2.1 : ℤ)
       = (st.map (fun kv =>
           max ((kv.2.original_size : ℤ) - (kv.2.optimized_size : ℤ)) 0)).sum) := by
  refine ⟨?_, ?_, ?_⟩
  · simp [ProcessedFile.new]
  · simp only [ProcessedFile.new, h, if_pos]
    exact reductionPercent_eq optS origS h
  · induction st with
    | nil => simp [StateManager.get_stats]
    | cons kv rest ih =>
        simp only [StateManager.get_stats, List.map_cons, List.sum_cons] at ih ⊢
        push_cast
        rw [← ih]
        rw [natSub_castInt]
        push_cast
        ring

/-- C10 witness: a record that grew from 100 to 120 bytes contributes 0
to the total saved, and the percentage formulas hold at 100/120. -/
theorem C10_total_arithmetic_witness :
    ((ProcessedFile.new inputJpg 5 0 120 7).reduction_percent = 0) ∧
    ((ProcessedFile.new inputJpg 5 100 120 7).reduction_percent
       = (1 - (120 : ℚ) / (100 : ℚ)) * 100) ∧
    (((StateManager.get_stats grownLedger).2.1 : ℤ)
       = (grownLedger.map (fun kv =>
           max ((kv.2.original_size : ℤ) - (kv.2.optimized_size : ℤ)) 0)).sum) :=
  C10_total_arithmetic inputJpg 5 100 120 7 grownLedger (by decide)
